import Mathlib

/-!
Verification development for the wildfire burn-severity dashboard (`app1.py`).

The app delegates raster computation to the Earth Engine service; locally it
builds per-pixel expressions (normalized differences, threshold
classification, water masking), validates date windows, parses uploaded
GeoJSON, and post-processes small scalar/series payloads returned by the
service.  We embed those parts shallowly:

* an Earth Engine image is a per-pixel partial rational raster
  (`Img := Pixel → Option ℚ`, `none` = masked pixel); the expression
  combinators (`normalizedDifference`, `gte`, `lt`, `lte`, `and`,
  `where`, `updateMask`, `selfMask`, `subtract`) follow the documented
  pointwise semantics of the Earth Engine API;
* remote reductions (zonal sums, daily means over the boundary) are
  oracle parameters (`Option` result, `none` = a failing remote call);
* Python `datetime.date` values are `Date` records ordered the way Python
  orders dates; `calendar.monthrange` is `daysInMonth`;
* Python `round(x, 2)` is `round2` (round half to even, as Python does);
* fallible code returns `Except` or threads explicit warning/error lists.
-/

/-- A raster pixel location. -/
abbrev Pixel := ℤ × ℤ

/-- An Earth Engine single-band image: a partial per-pixel rational value.
`none` models a masked pixel. -/
abbrev Img := Pixel → Option ℚ

/-- `image.normalizedDifference([a, b])`: per pixel `(a - b) / (a + b)`,
masked wherever an input is masked. -/
def normalizedDifference (a b : Img) : Img := fun p =>
  match a p, b p with
  | some x, some y => some ((x - y) / (x + y))
  | _, _ => none

/-- `image1.subtract(image2)`: pointwise difference, masked where an
input is masked. -/
def Img.subtract (a b : Img) : Img := fun p =>
  match a p, b p with
  | some x, some y => some (x - y)
  | _, _ => none

/-- `image.gte(c)`: 1 where the value is `≥ c`, else 0; mask preserved. -/
def Img.gte (a : Img) (c : ℚ) : Img := fun p =>
  (a p).map (fun v => if c ≤ v then 1 else 0)

/-- `image.lt(c)`: 1 where the value is `< c`, else 0; mask preserved. -/
def Img.lt (a : Img) (c : ℚ) : Img := fun p =>
  (a p).map (fun v => if v < c then 1 else 0)

/-- `image.lte(c)`: 1 where the value is `≤ c`, else 0; mask preserved. -/
def Img.lte (a : Img) (c : ℚ) : Img := fun p =>
  (a p).map (fun v => if v ≤ c then 1 else 0)

/-- `image1.And(image2)`: 1 where both are nonzero, else 0; masked where
an input is masked. -/
def Img.and (a b : Img) : Img := fun p =>
  match a p, b p with
  | some x, some y => some (if x ≠ 0 ∧ y ≠ 0 then 1 else 0)
  | _, _ => none

/-- `image.where(test, value)`: replace the pixel value by `value`
wherever `test` is nonzero; where `test` is masked the value is kept.
The output mask is the input image's mask. -/
def Img.wh (img test : Img) (val : ℚ) : Img := fun p =>
  (img p).map (fun v =>
    match test p with
    | some t => if t ≠ 0 then val else v
    | none => v)

/-- `image.updateMask(mask)`: keep a pixel only where it is unmasked and
the mask image is unmasked with a nonzero value. -/
def Img.updateMask (img m : Img) : Img := fun p =>
  match m p with
  | some t => if t ≠ 0 then img p else none
  | none => none

/-- `image.selfMask()`: mask out the pixels whose value is zero. -/
def Img.selfMask (img : Img) : Img := img.updateMask img

/-- A Sentinel-2 reflectance composite, restricted to the bands the app
reads: B3 (green), B8 (NIR), B11 (SWIR-1), B12 (SWIR-2). -/
structure Composite where
  B3 : Img
  B8 : Img
  B11 : Img
  B12 : Img

/-- `get_NDWI` from `main`: `image.normalizedDifference(['B3', 'B11'])`. -/
def get_NDWI (c : Composite) : Img := normalizedDifference c.B3 c.B11

/-- `get_NBR` from `main`: `image.normalizedDifference(['B8', 'B12'])`
(B8 is the NIR band, B12 the SWIR band). -/
def get_NBR (c : Composite) : Img := normalizedDifference c.B8 c.B12

/-- `dNBR = pre_fire_NBR.subtract(post_fire_NBR)`. -/
def dNBR (pre post : Composite) : Img :=
  (get_NBR pre).subtract (get_NBR post)

/-- `dNBR_classified`: the chain of `.where` reclassification calls from
`main`, with the exact threshold literals of the source (note the third
call uses the literal `0.99`). -/
def dNBR_classified (d : Img) : Img :=
  ((((((d.wh ((d.gte (-0.5)).and (d.lt (-0.251))) 1).wh
    ((d.gte (-0.250)).and (d.lt (-0.101))) 2).wh
    ((d.gte (-0.100)).and (d.lt 0.99)) 3).wh
    ((d.gte 0.100).and (d.lt 0.269)) 4).wh
    ((d.gte 0.270).and (d.lt 0.439)) 5).wh
    ((d.gte 0.440).and (d.lt 0.659)) 6).wh
    ((d.gte 0.660).and (d.lte 1.300)) 7

/-- The pointwise value cascade computed by `dNBR_classified`: each
`.where` call tests the original dNBR value, and a later call overwrites
an earlier one. -/
def classifyVal (v : ℚ) : ℚ :=
  let r1 := if -0.5 ≤ v ∧ v < -0.251 then 1 else v
  let r2 := if -0.250 ≤ v ∧ v < -0.101 then 2 else r1
  let r3 := if -0.100 ≤ v ∧ v < 0.99 then 3 else r2
  let r4 := if 0.100 ≤ v ∧ v < 0.269 then 4 else r3
  let r5 := if 0.270 ≤ v ∧ v < 0.439 then 5 else r4
  let r6 := if 0.440 ≤ v ∧ v < 0.659 then 6 else r5
  if 0.660 ≤ v ∧ v ≤ 1.300 then 7 else r6

/-- `binaryMask = pre_fire_ndwi.lt(-0.1)`. -/
def binaryMask (pre_ndwi : Img) : Img := pre_ndwi.lt (-0.1)

/-- `waterMask = binaryMask.selfMask()`. -/
def waterMask (pre_ndwi : Img) : Img := (binaryMask pre_ndwi).selfMask

/-- `masked_dNBR_classified = dNBR_classified.updateMask(waterMask)`,
with `pre_fire_ndwi = get_NDWI(pre_fire)` and the classified raster
derived from the two composites. -/
def masked_dNBR_classified (pre post : Composite) : Img :=
  (dNBR_classified (dNBR pre post)).updateMask (waterMask (get_NDWI pre))

theorem indicator_ne_zero (c : Prop) [Decidable c] :
    ((if c then (1 : ℚ) else 0) ≠ 0) ↔ c := by
  split_ifs with h <;> simp [h]

theorem dNBR_classified_apply (d : Img) (p : Pixel) (v : ℚ)
    (h : d p = some v) : dNBR_classified d p = some (classifyVal v) := by
  simp only [dNBR_classified, Img.wh, Img.and, Img.gte, Img.lt, Img.lte, h,
    Option.map_some', indicator_ne_zero, classifyVal]

theorem classifyVal_class1 (v : ℚ) (h1 : -0.5 ≤ v) (h2 : v < -0.251) :
    classifyVal v = 1 := by
  have n7 : ¬(0.660 ≤ v ∧ v ≤ 1.300) := fun hc => absurd hc.1 (by linarith)
  have n6 : ¬(0.440 ≤ v ∧ v < 0.659) := fun hc => absurd hc.1 (by linarith)
  have n5 : ¬(0.270 ≤ v ∧ v < 0.439) := fun hc => absurd hc.1 (by linarith)
  have n4 : ¬(0.100 ≤ v ∧ v < 0.269) := fun hc => absurd hc.1 (by linarith)
  have n3 : ¬(-0.100 ≤ v ∧ v < 0.99) := fun hc => absurd hc.1 (by linarith)
  have n2 : ¬(-0.250 ≤ v ∧ v < -0.101) := fun hc => absurd hc.1 (by linarith)
  simp only [classifyVal, if_neg n7, if_neg n6, if_neg n5, if_neg n4, if_neg n3,
    if_neg n2, if_pos (And.intro h1 h2)]

theorem classifyVal_class2 (v : ℚ) (h1 : -0.250 ≤ v) (h2 : v < -0.101) :
    classifyVal v = 2 := by
  have n7 : ¬(0.660 ≤ v ∧ v ≤ 1.300) := fun hc => absurd hc.1 (by linarith)
  have n6 : ¬(0.440 ≤ v ∧ v < 0.659) := fun hc => absurd hc.1 (by linarith)
  have n5 : ¬(0.270 ≤ v ∧ v < 0.439) := fun hc => absurd hc.1 (by linarith)
  have n4 : ¬(0.100 ≤ v ∧ v < 0.269) := fun hc => absurd hc.1 (by linarith)
  have n3 : ¬(-0.100 ≤ v ∧ v < 0.99) := fun hc => absurd hc.1 (by linarith)
  simp only [classifyVal, if_neg n7, if_neg n6, if_neg n5, if_neg n4, if_neg n3,
    if_pos (And.intro h1 h2)]

theorem classifyVal_class3 (v : ℚ) (h1 : -0.100 ≤ v) (h2 : v ≤ 0.099) :
    classifyVal v = 3 := by
  have n7 : ¬(0.660 ≤ v ∧ v ≤ 1.300) := fun hc => absurd hc.1 (by linarith)
  have n6 : ¬(0.440 ≤ v ∧ v < 0.659) := fun hc => absurd hc.1 (by linarith)
  have n5 : ¬(0.270 ≤ v ∧ v < 0.439) := fun hc => absurd hc.1 (by linarith)
  have n4 : ¬(0.100 ≤ v ∧ v < 0.269) := fun hc => absurd hc.1 (by linarith)
  simp only [classifyVal, if_neg n7, if_neg n6, if_neg n5, if_neg n4,
    if_pos (And.intro h1 (by linarith : v < 0.99))]

theorem classifyVal_class4 (v : ℚ) (h1 : 0.100 ≤ v) (h2 : v < 0.269) :
    classifyVal v = 4 := by
  have n7 : ¬(0.660 ≤ v ∧ v ≤ 1.300) := fun hc => absurd hc.1 (by linarith)
  have n6 : ¬(0.440 ≤ v ∧ v < 0.659) := fun hc => absurd hc.1 (by linarith)
  have n5 : ¬(0.270 ≤ v ∧ v < 0.439) := fun hc => absurd hc.1 (by linarith)
  simp only [classifyVal, if_neg n7, if_neg n6, if_neg n5,
    if_pos (And.intro h1 h2)]

theorem classifyVal_class5 (v : ℚ) (h1 : 0.270 ≤ v) (h2 : v < 0.439) :
    classifyVal v = 5 := by
  have n7 : ¬(0.660 ≤ v ∧ v ≤ 1.300) := fun hc => absurd hc.1 (by linarith)
  have n6 : ¬(0.440 ≤ v ∧ v < 0.659) := fun hc => absurd hc.1 (by linarith)
  simp only [classifyVal, if_neg n7, if_neg n6, if_pos (And.intro h1 h2)]

theorem classifyVal_class6 (v : ℚ) (h1 : 0.440 ≤ v) (h2 : v < 0.659) :
    classifyVal v = 6 := by
  have n7 : ¬(0.660 ≤ v ∧ v ≤ 1.300) := fun hc => absurd hc.1 (by linarith)
  simp only [classifyVal, if_neg n7, if_pos (And.intro h1 h2)]

theorem classifyVal_class7 (v : ℚ) (h1 : 0.660 ≤ v) (h2 : v ≤ 1.300) :
    classifyVal v = 7 := by
  simp only [classifyVal, if_pos (And.intro h1 h2)]

theorem classifyVal_passthrough (v : ℚ) (hout : v < -0.5 ∨ 1.3 < v) :
    classifyVal v = v := by
  rcases hout with hlo | hhi
  · have n7 : ¬(0.660 ≤ v ∧ v ≤ 1.300) := fun hc => absurd hc.1 (by linarith)
    have n6 : ¬(0.440 ≤ v ∧ v < 0.659) := fun hc => absurd hc.1 (by linarith)
    have n5 : ¬(0.270 ≤ v ∧ v < 0.439) := fun hc => absurd hc.1 (by linarith)
    have n4 : ¬(0.100 ≤ v ∧ v < 0.269) := fun hc => absurd hc.1 (by linarith)
    have n3 : ¬(-0.100 ≤ v ∧ v < 0.99) := fun hc => absurd hc.1 (by linarith)
    have n2 : ¬(-0.250 ≤ v ∧ v < -0.101) := fun hc => absurd hc.1 (by linarith)
    have n1 : ¬(-0.5 ≤ v ∧ v < -0.251) := fun hc => absurd hc.1 (by linarith)
    simp only [classifyVal, if_neg n7, if_neg n6, if_neg n5, if_neg n4, if_neg n3,
      if_neg n2, if_neg n1]
  · have n7 : ¬(0.660 ≤ v ∧ v ≤ 1.300) := fun hc => absurd hc.2 (by linarith)
    have n6 : ¬(0.440 ≤ v ∧ v < 0.659) := fun hc => absurd hc.2 (by linarith)
    have n5 : ¬(0.270 ≤ v ∧ v < 0.439) := fun hc => absurd hc.2 (by linarith)
    have n4 : ¬(0.100 ≤ v ∧ v < 0.269) := fun hc => absurd hc.2 (by linarith)
    have n3 : ¬(-0.100 ≤ v ∧ v < 0.99) := fun hc => absurd hc.2 (by linarith)
    have n2 : ¬(-0.250 ≤ v ∧ v < -0.101) := fun hc => absurd hc.2 (by linarith)
    have n1 : ¬(-0.5 ≤ v ∧ v < -0.251) := fun hc => absurd hc.2 (by linarith)
    simp only [classifyVal, if_neg n7, if_neg n6, if_neg n5, if_neg n4, if_neg n3,
      if_neg n2, if_neg n1]

/-- Witness composites: pre-fire pixel with green 0, NIR 1, SWIR-1 1,
SWIR-2 0 everywhere (NDWI = -1, NBR = 1); post-fire identical. -/
def cPre : Composite :=
  ⟨fun _ => some 0, fun _ => some 1, fun _ => some 1, fun _ => some 0⟩

/-- Witness post-fire composite, identical to `cPre` (so dNBR = 0). -/
def cPost : Composite :=
  ⟨fun _ => some 0, fun _ => some 1, fun _ => some 1, fun _ => some 0⟩

/-- C1: every pixel surviving in `masked_dNBR_classified` has pre-fire
NDWI strictly below -0.1 (the binary water mask `NDWI < -0.1` keeps
exactly the non-water pixels, so every classified pixel coincident with
water is removed), and its value is the classified dNBR value. -/
theorem C1_thm (pre post : Composite) (p : Pixel) (v : ℚ)
    (h : masked_dNBR_classified pre post p = some v) :
    ∃ w, get_NDWI pre p = some w ∧ w < -0.1 ∧
      dNBR_classified (dNBR pre post) p = some v := by
  rcases hn : get_NDWI pre p with _ | w
  · exfalso
    simp only [masked_dNBR_classified, Img.updateMask, waterMask, Img.selfMask,
      binaryMask, Img.lt, hn, Option.map_none'] at h
    exact Option.noConfusion h
  · by_cases hw : w < -0.1
    · refine ⟨w, rfl, hw, ?_⟩
      simp only [masked_dNBR_classified, Img.updateMask, waterMask, Img.selfMask,
        binaryMask, Img.lt, hn, Option.map_some', if_pos hw, indicator_ne_zero] at h
      simpa using h
    · exfalso
      simp only [masked_dNBR_classified, Img.updateMask, waterMask, Img.selfMask,
        binaryMask, Img.lt, hn, Option.map_some', if_neg hw, indicator_ne_zero] at h
      simp at h

/-- C1 witness: at the concrete composites the masked raster holds the
class value 3 and the theorem yields the non-water certificate. -/
theorem C1_wit :
    ∃ w, get_NDWI cPre ((0 : ℤ), (0 : ℤ)) = some w ∧ w < -0.1 ∧
      dNBR_classified (dNBR cPre cPost) ((0 : ℤ), (0 : ℤ)) = some 3 := by
  have hndwi : get_NDWI cPre ((0 : ℤ), (0 : ℤ)) = some (-1) := by
    norm_num [get_NDWI, normalizedDifference, cPre]
  have hd : dNBR cPre cPost ((0 : ℤ), (0 : ℤ)) = some 0 := by
    norm_num [dNBR, get_NBR, normalizedDifference, Img.subtract, cPre, cPost]
  have hcls : dNBR_classified (dNBR cPre cPost) ((0 : ℤ), (0 : ℤ)) = some 3 := by
    rw [dNBR_classified_apply _ _ 0 hd,
      classifyVal_class3 0 (by norm_num) (by norm_num)]
  refine C1_thm cPre cPost ((0 : ℤ), (0 : ℤ)) 3 ?_
  simp only [masked_dNBR_classified, Img.updateMask, waterMask, Img.selfMask,
    binaryMask, Img.lt, hndwi, Option.map_some']
  norm_num
  exact hcls

/-- C2: on every range of the severity table the classifier assigns the
class index of that range (the table's ranges are pairwise disjoint, so
the "first satisfied predicate" tie-break is vacuous, and the chained
`.where` calls of the source return exactly the table's class on each
range). -/
theorem C2_thm (d : Img) (p : Pixel) (v : ℚ) (h : d p = some v) :
    ((-0.5 ≤ v ∧ v < -0.251) → dNBR_classified d p = some 1) ∧
    ((-0.25 ≤ v ∧ v < -0.101) → dNBR_classified d p = some 2) ∧
    ((-0.10 ≤ v ∧ v ≤ 0.099) → dNBR_classified d p = some 3) ∧
    ((0.10 ≤ v ∧ v < 0.269) → dNBR_classified d p = some 4) ∧
    ((0.27 ≤ v ∧ v < 0.439) → dNBR_classified d p = some 5) ∧
    ((0.44 ≤ v ∧ v < 0.659) → dNBR_classified d p = some 6) ∧
    ((0.66 ≤ v ∧ v ≤ 1.30) → dNBR_classified d p = some 7) := by
  have hc := dNBR_classified_apply d p v h
  refine ⟨fun hr => ?_, fun hr => ?_, fun hr => ?_, fun hr => ?_,
    fun hr => ?_, fun hr => ?_, fun hr => ?_⟩
  · rw [hc, classifyVal_class1 v (by linarith [hr.1]) (by linarith [hr.2])]
  · rw [hc, classifyVal_class2 v (by linarith [hr.1]) (by linarith [hr.2])]
  · rw [hc, classifyVal_class3 v (by linarith [hr.1]) (by linarith [hr.2])]
  · rw [hc, classifyVal_class4 v (by linarith [hr.1]) (by linarith [hr.2])]
  · rw [hc, classifyVal_class5 v (by linarith [hr.1]) (by linarith [hr.2])]
  · rw [hc, classifyVal_class6 v (by linarith [hr.1]) (by linarith [hr.2])]
  · rw [hc, classifyVal_class7 v (by linarith [hr.1]) (by linarith [hr.2])]

/-- C2 witness: one concrete dNBR value inside each of the 7 ranges. -/
theorem C2_wit :
    dNBR_classified (fun _ => some (-0.3)) ((0 : ℤ), (0 : ℤ)) = some 1 ∧
    dNBR_classified (fun _ => some (-0.2)) ((0 : ℤ), (0 : ℤ)) = some 2 ∧
    dNBR_classified (fun _ => some 0) ((0 : ℤ), (0 : ℤ)) = some 3 ∧
    dNBR_classified (fun _ => some 0.2) ((0 : ℤ), (0 : ℤ)) = some 4 ∧
    dNBR_classified (fun _ => some 0.3) ((0 : ℤ), (0 : ℤ)) = some 5 ∧
    dNBR_classified (fun _ => some 0.5) ((0 : ℤ), (0 : ℤ)) = some 6 ∧
    dNBR_classified (fun _ => some 1) ((0 : ℤ), (0 : ℤ)) = some 7 :=
  ⟨(C2_thm _ _ _ rfl).1 (by norm_num),
   (C2_thm _ _ _ rfl).2.1 (by norm_num),
   (C2_thm _ _ _ rfl).2.2.1 (by norm_num),
   (C2_thm _ _ _ rfl).2.2.2.1 (by norm_num),
   (C2_thm _ _ _ rfl).2.2.2.2.1 (by norm_num),
   (C2_thm _ _ _ rfl).2.2.2.2.2.1 (by norm_num),
   (C2_thm _ _ _ rfl).2.2.2.2.2.2 (by norm_num)⟩

/-- C4: a dNBR value outside [-0.5, 1.3] matches none of the `.where`
tests, so the original dNBR value passes through unchanged. -/
theorem C4_thm (d : Img) (p : Pixel) (v : ℚ) (h : d p = some v)
    (hout : v < -0.5 ∨ 1.3 < v) : dNBR_classified d p = some v := by
  rw [dNBR_classified_apply d p v h, classifyVal_passthrough v hout]

/-- C4 witness: the value 2 (> 1.3) is passed through unclassified. -/
theorem C4_wit :
    dNBR_classified (fun _ => some 2) ((0 : ℤ), (0 : ℤ)) = some 2 :=
  C4_thm _ _ _ rfl (Or.inr (by norm_num))

/-- C5: at every pixel whose four bands are defined, dNBR is the exact
subtraction of the two per-composite normalized burn ratios
`(NIR - SWIR) / (NIR + SWIR)` (NIR = B8, SWIR = B12). -/
theorem C5_thm (pre post : Composite) (p : Pixel) (n1 s1 n2 s2 : ℚ)
    (h1 : pre.B8 p = some n1) (h2 : pre.B12 p = some s1)
    (h3 : post.B8 p = some n2) (h4 : post.B12 p = some s2) :
    dNBR pre post p =
      some ((n1 - s1) / (n1 + s1) - (n2 - s2) / (n2 + s2)) := by
  simp [dNBR, Img.subtract, get_NBR, normalizedDifference, h1, h2, h3, h4]

/-- C5 witness: with NIR = 1, SWIR = 0 on both composites, dNBR = 0. -/
theorem C5_wit :
    dNBR cPre cPost ((0 : ℤ), (0 : ℤ)) =
      some ((1 - 0) / (1 + 0) - (1 - 0) / (1 + 0)) :=
  C5_thm cPre cPost ((0 : ℤ), (0 : ℤ)) 1 0 1 0 rfl rfl rfl rfl

/-- A Python `datetime.date`-style calendar date. -/
structure Date where
  y : ℕ
  m : ℕ
  d : ℕ
deriving DecidableEq, Repr

/-- Comparison key: Python orders dates lexicographically by
(year, month, day); for months ≤ 12 and days ≤ 31 that order coincides
with the order of `y * 10000 + m * 100 + d`. -/
def Date.key (a : Date) : ℕ := a.y * 10000 + a.m * 100 + a.d

/-- `a < b` as Python compares `datetime.date` values. -/
def Date.lt (a b : Date) : Prop := a.key < b.key

/-- `a ≤ b` as Python compares `datetime.date` values. -/
def Date.le (a b : Date) : Prop := a.key ≤ b.key

instance (a b : Date) : Decidable (a.lt b) :=
  inferInstanceAs (Decidable (a.key < b.key))

instance (a b : Date) : Decidable (a.le b) :=
  inferInstanceAs (Decidable (a.key ≤ b.key))

/-- The date-range validation block of `main`: each failing check calls
`st.error` and `st.stop()`, which halts the script run (modelled as
`Except.error` carrying the message shown). -/
def validate_dates (ps pe qs qe : Date) :
    Except String (Date × Date × Date × Date) :=
  if pe.lt ps then
    Except.error "Pre-fire start date must be before end date."
  else if qe.lt qs then
    Except.error "Post-fire start date must be before end date."
  else if qs.le pe then
    Except.error "Pre-fire date range must be before post-fire date range."
  else Except.ok (ps, pe, qs, qe)

/-- The imagery queries `main` issues: the two `satCollection` calls
(pre-fire and post-fire window) run only if the script was not stopped
by validation; a failed check issues no query. -/
def main_queries (ps pe qs qe : Date) : List (Date × Date) :=
  match validate_dates ps pe qs qe with
  | Except.error _ => []
  | Except.ok _ => [(ps, pe), (qs, qe)]

/-- C6: whenever the pre-fire window end is ≥ the post-fire window
start, validation rejects the run with an error and no imagery query is
issued to the remote service. -/
theorem C6_thm (ps pe qs qe : Date) (h : qs.le pe) :
    (∃ msg, validate_dates ps pe qs qe = Except.error msg) ∧
      main_queries ps pe qs qe = [] := by
  have hv : ∃ msg, validate_dates ps pe qs qe = Except.error msg := by
    by_cases h1 : pe.lt ps
    · exact ⟨"Pre-fire start date must be before end date.",
        by simp [validate_dates, if_pos h1]⟩
    · by_cases h2 : qe.lt qs
      · exact ⟨"Post-fire start date must be before end date.",
          by simp [validate_dates, if_neg h1, if_pos h2]⟩
      · exact ⟨"Pre-fire date range must be before post-fire date range.",
          by simp [validate_dates, if_neg h1, if_neg h2, if_pos h]⟩
  obtain ⟨msg, hmsg⟩ := hv
  exact ⟨⟨msg, hmsg⟩, by unfold main_queries; rw [hmsg]⟩

/-- C6 witness: overlapping windows (pre-fire ends 2023-07-25, post-fire
starts 2023-07-20) are rejected before any query. -/
theorem C6_wit :
    (∃ msg, validate_dates ⟨2023, 7, 5⟩ ⟨2023, 7, 25⟩ ⟨2023, 7, 20⟩
      ⟨2023, 7, 27⟩ = Except.error msg) ∧
      main_queries ⟨2023, 7, 5⟩ ⟨2023, 7, 25⟩ ⟨2023, 7, 20⟩
        ⟨2023, 7, 27⟩ = [] :=
  C6_thm _ _ _ _ (by decide)

/-- `calculate_class_area`: the per-class zonal area sum is computed by
the remote service (`remote`, with `none` modelling a raised exception);
on failure the source shows `st.error` and returns 0.  The result pairs
the returned area with the error message shown, if any. -/
def calculate_class_area (remote : ℕ → Option ℚ) (class_value : ℕ) :
    ℚ × Option String :=
  match remote class_value with
  | some a => (a, none)
  | none => (0, some "Error calculating class area")

/-- The report loop of `main` (`for i in range(1, 8)`): it appends
`area / 1e6` for every class and never stops; the second component
collects the error messages shown along the way. -/
def report_class_areas (remote : ℕ → Option ℚ) : List ℚ × List String :=
  ((List.range 7).map (fun i => (calculate_class_area remote (i + 1)).1 / 1e6),
   (List.range 7).filterMap (fun i => (calculate_class_area remote (i + 1)).2))

/-- C3 counterexample: when every remote per-class reduction fails, the
report is still produced in full — seven fabricated areas of 0 km² —
instead of the pipeline halting. -/
theorem C3_cex :
    (report_class_areas (fun _ => none)).1 = [0, 0, 0, 0, 0, 0, 0] ∧
    ((report_class_areas (fun _ => none)).1).length = 7 ∧
    (report_class_areas (fun _ => none)).2 ≠ [] := by
  refine ⟨?_, ?_, ?_⟩
  · norm_num [report_class_areas, calculate_class_area, List.range_succ]
  · norm_num [report_class_areas]
  · simp [report_class_areas, calculate_class_area, List.range_succ]

/-- C3 (amended): when the remote reduction for a class fails, the error
is reported with a message, but the pipeline continues: the report still
lists all seven classes, with 0 recorded for the failed class. -/
theorem C3_thm (remote : ℕ → Option ℚ) (i : ℕ) (h1 : i < 7)
    (h2 : remote (i + 1) = none) :
    (report_class_areas remote).1.length = 7 ∧
    ((report_class_areas remote).1)[i]? = some 0 ∧
    (report_class_areas remote).2 ≠ [] := by
  refine ⟨by simp [report_class_areas], ?_, ?_⟩
  · simp [report_class_areas, List.getElem?_map, List.getElem?_range h1,
      calculate_class_area, h2]
  · intro hnil
    simp only [report_class_areas, List.filterMap_eq_nil_iff] at hnil
    have := hnil i (List.mem_range.mpr h1)
    simp [calculate_class_area, h2] at this

/-- C3 witness: all-failing remote calls, checked at class 1. -/
theorem C3_wit :
    (report_class_areas (fun _ => none)).1.length = 7 ∧
    ((report_class_areas (fun _ => none)).1)[0]? = some 0 ∧
    (report_class_areas (fun _ => none)).2 ≠ [] :=
  C3_thm (fun _ => none) 0 (by norm_num) rfl

/-- Gregorian leap-year rule, as used by Python `calendar.monthrange`. -/
def isLeap (y : ℕ) : Prop := y % 4 = 0 ∧ (y % 100 ≠ 0 ∨ y % 400 = 0)

instance (y : ℕ) : Decidable (isLeap y) := by
  unfold isLeap; infer_instance

/-- `calendar.monthrange(y, m)[1]`: the number of days in month `m` of
year `y`. -/
def daysInMonth (y m : ℕ) : ℕ :=
  if m = 2 then (if isLeap y then 29 else 28)
  else if m = 4 ∨ m = 6 ∨ m = 9 ∨ m = 11 then 30 else 31

/-- A well-formed calendar date. -/
def Date.valid (a : Date) : Prop :=
  1 ≤ a.m ∧ a.m ≤ 12 ∧ 1 ≤ a.d ∧ a.d ≤ daysInMonth a.y a.m

instance (a : Date) : Decidable a.valid := by
  unfold Date.valid; infer_instance

/-- `initial_date.replace(day=1)`: the first day of the month. -/
def startOfMonth (a : Date) : Date := ⟨a.y, a.m, 1⟩

/-- `end_date.replace(day=end_of_month_day)`: the last day of the month. -/
def endOfMonthOf (a : Date) : Date := ⟨a.y, a.m, daysInMonth a.y a.m⟩

/-- The successor day in the Gregorian calendar. -/
def nextDay (a : Date) : Date :=
  if a.d < daysInMonth a.y a.m then ⟨a.y, a.m, a.d + 1⟩
  else if a.m < 12 then ⟨a.y, a.m + 1, 1⟩
  else ⟨a.y + 1, 1, 1⟩

/-- Enumerate the days from `cur` while strictly before `stop`; the fuel
only bounds the recursion (`dateRangeExcl` supplies enough of it). -/
def dateRangeGo : ℕ → Date → Date → List Date
  | 0, _, _ => []
  | fuel + 1, cur, stop =>
    if cur.key < stop.key then cur :: dateRangeGo fuel (nextDay cur) stop
    else []

/-- The days `d` with `s ≤ d < t`, ascending: what a remote
`filterDate(s, t)` query returns over a daily image collection — the
Earth Engine date filter includes its start and excludes its end. -/
def dateRangeExcl (s t : Date) : List Date := dateRangeGo (t.key - s.key) s t

theorem daysInMonth_pos (y m : ℕ) : 1 ≤ daysInMonth y m := by
  unfold daysInMonth; split_ifs <;> norm_num

theorem daysInMonth_le_31 (y m : ℕ) : daysInMonth y m ≤ 31 := by
  unfold daysInMonth; split_ifs <;> norm_num

theorem startOfMonth_valid {a : Date} (ha : a.valid) :
    (startOfMonth a).valid := by
  unfold Date.valid at ha ⊢
  unfold startOfMonth
  exact ⟨ha.1, ha.2.1, le_refl 1, daysInMonth_pos _ _⟩

theorem endOfMonthOf_valid {a : Date} (ha : a.valid) :
    (endOfMonthOf a).valid := by
  unfold Date.valid at ha ⊢
  unfold endOfMonthOf
  exact ⟨ha.1, ha.2.1, daysInMonth_pos _ _, le_refl _⟩

theorem nextDay_valid {a : Date} (ha : a.valid) : (nextDay a).valid := by
  unfold Date.valid at ha
  obtain ⟨h1, h2, h3, h4⟩ := ha
  have p1 := daysInMonth_pos a.y (a.m + 1)
  have p2 := daysInMonth_pos (a.y + 1) 1
  unfold nextDay Date.valid
  split_ifs with k1 k2 <;> dsimp only <;> omega

theorem key_lt_nextDay {a : Date} (ha : a.valid) : a.key < (nextDay a).key := by
  unfold Date.valid at ha
  obtain ⟨h1, h2, h3, h4⟩ := ha
  have h31 := daysInMonth_le_31 a.y a.m
  unfold nextDay
  split_ifs with k1 k2 <;> simp only [Date.key] <;> omega

theorem key_inj {a b : Date} (ha : a.valid) (hb : b.valid)
    (h : a.key = b.key) : a = b := by
  unfold Date.valid at ha hb
  obtain ⟨a1, a2, a3, a4⟩ := ha
  obtain ⟨b1, b2, b3, b4⟩ := hb
  have ha31 := daysInMonth_le_31 a.y a.m
  have hb31 := daysInMonth_le_31 b.y b.m
  unfold Date.key at h
  have hy : a.y = b.y := by omega
  have hm : a.m = b.m := by omega
  have hd : a.d = b.d := by omega
  cases a
  cases b
  simp only at hy hm hd
  simp [hy, hm, hd]

theorem nextDay_key_le {a b : Date} (ha : a.valid) (hb : b.valid)
    (h : a.key < b.key) : (nextDay a).key ≤ b.key := by
  unfold Date.valid at ha hb
  obtain ⟨a1, a2, a3, a4⟩ := ha
  obtain ⟨b1, b2, b3, b4⟩ := hb
  have ha31 := daysInMonth_le_31 a.y a.m
  have hb31 := daysInMonth_le_31 b.y b.m
  unfold nextDay
  split_ifs with k1 k2
  · simp only [Date.key] at h ⊢
    omega
  · simp only [Date.key] at h ⊢
    by_cases hy : b.y = a.y
    · by_cases hm : b.m = a.m
      · exfalso
        have hbd : b.d ≤ daysInMonth a.y a.m := by rw [← hy, ← hm]; exact b4
        omega
      · omega
    · omega
  · have hm12 : a.m = 12 := le_antisymm a2 (not_lt.mp k2)
    have h12 : daysInMonth a.y a.m = 31 := by
      rw [hm12]; norm_num [daysInMonth]
    simp only [Date.key] at h ⊢
    by_cases hy : b.y = a.y
    · exfalso
      have hbm : b.m = 12 := by omega
      have hb12 : daysInMonth b.y b.m = 31 := by
        rw [hbm]; norm_num [daysInMonth]
      omega
    · omega

theorem dateRangeGo_sub_mem : ∀ (fuel : ℕ) (s t d : Date), s.valid →
    d ∈ dateRangeGo fuel s t → s.key ≤ d.key ∧ d.key < t.key ∧ d.valid := by
  intro fuel
  induction fuel with
  | zero => intro s t d _ hd; simp [dateRangeGo] at hd
  | succ n ih =>
    intro s t d hs hd
    unfold dateRangeGo at hd
    split_ifs at hd with hlt
    · rcases List.mem_cons.mp hd with rfl | hmem
      · exact ⟨le_refl _, hlt, hs⟩
      · obtain ⟨g1, g2, g3⟩ := ih (nextDay s) t d (nextDay_valid hs) hmem
        exact ⟨le_trans (le_of_lt (key_lt_nextDay hs)) g1, g2, g3⟩
    · simp at hd

theorem dateRangeGo_pairwise : ∀ (fuel : ℕ) (s t : Date), s.valid →
    List.Pairwise Date.lt (dateRangeGo fuel s t) := by
  intro fuel
  induction fuel with
  | zero => intro s t _; simp [dateRangeGo]
  | succ n ih =>
    intro s t hs
    unfold dateRangeGo
    split_ifs with hlt
    · refine List.Pairwise.cons ?_ (ih (nextDay s) t (nextDay_valid hs))
      intro b hb
      have hge := (dateRangeGo_sub_mem n (nextDay s) t b (nextDay_valid hs) hb).1
      exact lt_of_lt_of_le (key_lt_nextDay hs) hge
    · exact List.Pairwise.nil

theorem dateRangeGo_complete : ∀ (fuel : ℕ) (s t d : Date), s.valid → d.valid →
    s.key ≤ d.key → d.key < t.key → t.key ≤ s.key + fuel →
    d ∈ dateRangeGo fuel s t := by
  intro fuel
  induction fuel with
  | zero =>
    intro s t d _ _ h1 h2 h3
    exfalso
    omega
  | succ n ih =>
    intro s t d hs hd h1 h2 h3
    unfold dateRangeGo
    rw [if_pos (lt_of_le_of_lt h1 h2)]
    rcases eq_or_lt_of_le h1 with heq | hlt
    · have : s = d := key_inj hs hd heq
      exact this ▸ List.mem_cons_self _ _
    · refine List.mem_cons_of_mem _
        (ih (nextDay s) t d (nextDay_valid hs) hd (nextDay_key_le hs hd hlt) h2 ?_)
      have := key_lt_nextDay hs
      omega

theorem dateRangeExcl_mem {s t d : Date} (hs : s.valid)
    (h : d ∈ dateRangeExcl s t) : s.key ≤ d.key ∧ d.key < t.key ∧ d.valid :=
  dateRangeGo_sub_mem _ s t d hs h

theorem dateRangeExcl_pairwise (s t : Date) (hs : s.valid) :
    List.Pairwise Date.lt (dateRangeExcl s t) :=
  dateRangeGo_pairwise _ s t hs

theorem dateRangeExcl_complete {s t d : Date} (hs : s.valid) (hd : d.valid)
    (h1 : s.key ≤ d.key) (h2 : d.key < t.key) : d ∈ dateRangeExcl s t :=
  dateRangeGo_complete _ s t d hs hd h1 h2 (by unfold Date.key at *; omega)

theorem dateRangeExcl_nodup (s t : Date) (hs : s.valid) :
    (dateRangeExcl s t).Nodup := by
  refine (dateRangeExcl_pairwise s t hs).imp ?_
  intro a b hab he
  rw [he] at hab
  exact absurd hab (lt_irrefl b.key)

/-- Round half to even to an integer, as Python `round` does. -/
def roundHalfEven (x : ℚ) : ℤ :=
  let f := ⌊x⌋
  let r := x - f
  if r < 1 / 2 then f
  else if 1 / 2 < r then f + 1
  else if f % 2 = 0 then f else f + 1

/-- Python `round(x, 2)`: round to two decimal places. -/
def round2 (x : ℚ) : ℚ := (roundHalfEven (x * 100) : ℚ) / 100

/-- The arithmetic mean of a list of values (pandas `mean`). -/
def listMean (l : List ℚ) : ℚ := l.sum / l.length

/-- The keys of a keyed list, first occurrence first, duplicates
removed.  For a list whose keys arrive in ascending order — the only
shape produced below — this is the ascending key order that pandas
`groupby("Date")` sorts its groups into. -/
def uniqueKeys : List (Date × ℚ) → List Date
  | [] => []
  | x :: rest => x.1 :: uniqueKeys (rest.filter (fun y => y.1 ≠ x.1))
termination_by l => l.length
decreasing_by
  simp only [List.length_cons]
  exact Nat.lt_succ_of_le (List.length_filter_le _ _)

/-- pandas `df.groupby("Date", as_index=False).mean()`: one row per
distinct date, holding the mean of the rows with that date. -/
def groupMean (l : List (Date × ℚ)) : List (Date × ℚ) :=
  (uniqueKeys l).map (fun d =>
    (d, listMean (l.filterMap (fun x => if x.1 = d then some x.2 else none))))

/-- `chirpsCollection(start, end, aoi)`: the daily CHIRPS precipitation
images returned by the remote `filterDate(start, end)` query — one image
per day `d` with `start ≤ d < end` (the Earth Engine date filter
includes its start and excludes its end), ascending. -/
def chirpsCollection (s t : Date) : List Date := dateRangeExcl s t

/-- `full_month_precipitation(initialDate, endDate, aoi)`: expand the
window to full calendar months, query the daily collection, and build
the (date, rounded value) series.  `data d` stands for the remote
`reduceRegion` daily spatial mean of precipitation over the boundary on
day `d`. -/
def full_month_precipitation (i e : Date) (data : Date → ℚ) :
    List (Date × ℚ) :=
  let raincol := chirpsCollection (startOfMonth i) (endOfMonthOf e)
  if raincol.isEmpty then []
  else raincol.map (fun d => (d, round2 (data d)))

/-- `temperatureCollection(start, end, aoi)`: the hourly ERA5-Land
images for `filterDate(start, end)`: 24 hourly images for each day `d`
with `start ≤ d < end`, each labelled
(`img.date().format("YYYY-MM-dd")`) with its day. -/
def temperatureCollection (s t : Date) : List (Date × ℕ) :=
  (dateRangeExcl s t).flatMap (fun d => (List.range 24).map (fun h => (d, h)))

/-- `full_month_temperature(initialDate, endDate, aoi)`: expand the
window to full calendar months, convert each hourly Kelvin value
(`tdata d h`, the remote spatial mean for hour `h` of day `d`) to
Celsius rounded to two decimals, then group by date taking daily means. -/
def full_month_temperature (i e : Date) (tdata : Date → ℕ → ℚ) :
    List (Date × ℚ) :=
  let tempcol := temperatureCollection (startOfMonth i) (endOfMonthOf e)
  if tempcol.isEmpty then []
  else groupMean (tempcol.map (fun x => (x.1, round2 (tdata x.1 x.2 - 273.15))))

theorem tempcol_map_t (days : List Date) (tdata : Date → ℕ → ℚ) :
    ((days.flatMap (fun d => (List.range 24).map (fun h => (d, h)))).map
        (fun x => (x.1, round2 (tdata x.1 x.2 - 273.15)))) =
      days.flatMap (fun d => (List.range 24).map
        (fun h => (d, round2 (tdata d h - 273.15)))) := by
  induction days with
  | nil => rfl
  | cons a rest ih =>
    rw [List.flatMap_cons, List.flatMap_cons, List.map_append, ih]
    rw [List.map_map]
    rfl

theorem tempcol_map_c (days : List Date) (q : ℚ) :
    ((days.flatMap (fun d => (List.range 24).map (fun h => (d, h)))).map
        (fun x => (x.1, q))) =
      days.flatMap (fun d => (List.range 24).map (fun h => (d, q))) := by
  induction days with
  | nil => rfl
  | cons a rest ih =>
    rw [List.flatMap_cons, List.flatMap_cons, List.map_append, ih]
    rw [List.map_map]
    rfl

theorem uniqueKeys_append_block (a : Date) (vs : List ℚ)
    (l : List (Date × ℚ)) (hvs : vs ≠ []) :
    uniqueKeys (vs.map (fun v => (a, v)) ++ l) =
      a :: uniqueKeys (l.filter (fun y => y.1 ≠ a)) := by
  cases vs with
  | nil => exact absurd rfl hvs
  | cons v vrest =>
    rw [List.map_cons, List.cons_append, uniqueKeys]
    congr 1
    rw [List.filter_append]
    have hb : (vrest.map (fun v => (a, v))).filter (fun y => y.1 ≠ a) = [] := by
      rw [List.filter_eq_nil_iff]
      intro x hx
      obtain ⟨w, _, rfl⟩ := List.mem_map.mp hx
      simp
    rw [hb, List.nil_append]

theorem uniqueKeys_hourly (days : List Date) (g : Date → ℕ → ℚ)
    (hnd : days.Nodup) :
    uniqueKeys (days.flatMap
      (fun d => (List.range 24).map (fun h => (d, g d h)))) = days := by
  induction days with
  | nil => simp [uniqueKeys]
  | cons a rest ih =>
    rw [List.flatMap_cons]
    have hrw : (List.range 24).map (fun h => (a, g a h)) =
        ((List.range 24).map (g a)).map (fun v => (a, v)) := by
      rw [List.map_map]
      rfl
    rw [hrw, uniqueKeys_append_block a _ _ (by simp)]
    congr 1
    have hfil : ((rest.flatMap
        (fun d => (List.range 24).map (fun h => (d, g d h)))).filter
        (fun y => y.1 ≠ a)) =
        rest.flatMap (fun d => (List.range 24).map (fun h => (d, g d h))) := by
      apply List.filter_eq_self.mpr
      intro x hx
      obtain ⟨d2, hd2, hxm⟩ := List.mem_flatMap.mp hx
      obtain ⟨h2, _, rfl⟩ := List.mem_map.mp hxm
      have : d2 ≠ a := fun he => (List.nodup_cons.mp hnd).1 (he ▸ hd2)
      simp [this]
    rw [hfil]
    exact ih (List.nodup_cons.mp hnd).2

theorem groupMean_dates (l : List (Date × ℚ)) :
    (groupMean l).map Prod.fst = uniqueKeys l := by
  unfold groupMean
  rw [List.map_map]
  have hcomp : (Prod.fst ∘ fun d : Date =>
      (d, listMean (l.filterMap
        (fun x => if x.1 = d then some x.2 else none)))) = id := rfl
  rw [hcomp, List.map_id]

theorem groupMean_mem {l : List (Date × ℚ)} {d : Date} {v : ℚ}
    (h : (d, v) ∈ groupMean l) :
    v = listMean (l.filterMap (fun x => if x.1 = d then some x.2 else none)) := by
  unfold groupMean at h
  rcases List.mem_map.mp h with ⟨k, hk, he⟩
  rw [Prod.mk.injEq] at he
  obtain ⟨h1, h2⟩ := he
  subst h1
  exact h2.symm

theorem filterMap_key_hourly (days : List Date) (g : Date → ℕ → ℚ)
    (hnd : days.Nodup) (d : Date) (hd : d ∈ days) :
    ((days.flatMap (fun d2 => (List.range 24).map
        (fun h => (d2, g d2 h)))).filterMap
      (fun x => if x.1 = d then some x.2 else none)) =
    (List.range 24).map (g d) := by
  induction days with
  | nil => cases hd
  | cons a rest ih =>
    rw [List.flatMap_cons, List.filterMap_append]
    rcases List.mem_cons.mp hd with rfl | hmem
    · have hblock : ((List.range 24).map (fun h => (d, g d h))).filterMap
          (fun x => if x.1 = d then some x.2 else none) =
          (List.range 24).map (g d) := by
        rw [List.filterMap_map]
        have : ((fun x : Date × ℚ => if x.1 = d then some x.2 else none) ∘
            (fun h => (d, g d h))) = some ∘ g d := by
          funext h
          simp
        rw [this, List.filterMap_eq_map]
      have hrest : ((rest.flatMap (fun d2 => (List.range 24).map
          (fun h => (d2, g d2 h)))).filterMap
          (fun x => if x.1 = d then some x.2 else none)) = [] := by
        rw [List.filterMap_eq_nil_iff]
        intro x hx
        obtain ⟨d2, hd2, hxm⟩ := List.mem_flatMap.mp hx
        obtain ⟨h2, _, rfl⟩ := List.mem_map.mp hxm
        have : d2 ≠ d := fun he => (List.nodup_cons.mp hnd).1 (he ▸ hd2)
        simp [this]
      rw [hblock, hrest, List.append_nil]
    · have hane : a ≠ d := fun he => (List.nodup_cons.mp hnd).1 (he ▸ hmem)
      have hblock : ((List.range 24).map (fun h => (a, g a h))).filterMap
          (fun x => if x.1 = d then some x.2 else none) = [] := by
        rw [List.filterMap_eq_nil_iff]
        intro x hx
        obtain ⟨h2, _, rfl⟩ := List.mem_map.mp hx
        simp [hane]
      rw [hblock, List.nil_append]
      exact ih (List.nodup_cons.mp hnd).2 hmem

theorem listMean_replicate (n : ℕ) (hn : n ≠ 0) (x : ℚ) :
    listMean (List.replicate n x) = x := by
  unfold listMean
  rw [List.sum_replicate, List.length_replicate, nsmul_eq_mul]
  exact mul_div_cancel_left₀ _ (Nat.cast_ne_zero.mpr hn)

theorem full_month_precipitation_dates (i e : Date) (data : Date → ℚ) :
    (full_month_precipitation i e data).map Prod.fst =
      dateRangeExcl (startOfMonth i) (endOfMonthOf e) := by
  simp only [full_month_precipitation, chirpsCollection]
  split_ifs with h
  · rw [List.isEmpty_iff] at h
    rw [h]
    rfl
  · rw [List.map_map]
    have hcomp : (Prod.fst ∘ fun d : Date => (d, round2 (data d))) = id := rfl
    rw [hcomp, List.map_id]

theorem full_month_temperature_dates (i e : Date) (tdata : Date → ℕ → ℚ)
    (hi : i.valid) :
    (full_month_temperature i e tdata).map Prod.fst =
      dateRangeExcl (startOfMonth i) (endOfMonthOf e) := by
  simp only [full_month_temperature, temperatureCollection]
  split_ifs with h
  · rw [List.isEmpty_iff] at h
    have hdays : dateRangeExcl (startOfMonth i) (endOfMonthOf e) = [] := by
      by_contra hne
      obtain ⟨a, rest, hcons⟩ := List.exists_cons_of_ne_nil hne
      rw [hcons, List.flatMap_cons] at h
      simp at h
    rw [hdays]
    rfl
  · rw [tempcol_map_t (dateRangeExcl (startOfMonth i) (endOfMonthOf e)) tdata,
      groupMean_dates]
    exact uniqueKeys_hourly _ (fun d h => round2 (tdata d h - 273.15))
      (dateRangeExcl_nodup _ _ (startOfMonth_valid hi))

theorem full_month_temperature_const (i e : Date) (hi : i.valid) (c : ℚ) :
    full_month_temperature i e (fun _ _ => c) =
      (dateRangeExcl (startOfMonth i) (endOfMonthOf e)).map
        (fun d => (d, round2 (c - 273.15))) := by
  simp only [full_month_temperature, temperatureCollection]
  split_ifs with h
  · rw [List.isEmpty_iff] at h
    have hdays : dateRangeExcl (startOfMonth i) (endOfMonthOf e) = [] := by
      by_contra hne
      obtain ⟨a, rest, hcons⟩ := List.exists_cons_of_ne_nil hne
      rw [hcons, List.flatMap_cons] at h
      simp at h
    rw [hdays]
    rfl
  · rw [tempcol_map_c (dateRangeExcl (startOfMonth i) (endOfMonthOf e))
      (round2 (c - 273.15))]
    unfold groupMean
    rw [show uniqueKeys ((dateRangeExcl (startOfMonth i) (endOfMonthOf e)).flatMap
        (fun d => (List.range 24).map (fun h => (d, round2 (c - 273.15))))) =
        dateRangeExcl (startOfMonth i) (endOfMonthOf e) from
      uniqueKeys_hourly _ (fun _ _ => round2 (c - 273.15))
        (dateRangeExcl_nodup _ _ (startOfMonth_valid hi))]
    refine List.map_congr_left ?_
    intro d hd
    rw [show ((dateRangeExcl (startOfMonth i) (endOfMonthOf e)).flatMap
          (fun d2 => (List.range 24).map
            (fun h => (d2, round2 (c - 273.15))))).filterMap
          (fun x => if x.1 = d then some x.2 else none) =
        (List.range 24).map (fun _ => round2 (c - 273.15)) from
      filterMap_key_hourly _ (fun _ _ => round2 (c - 273.15))
        (dateRangeExcl_nodup _ _ (startOfMonth_valid hi)) d hd]
    rw [show (List.range 24).map (fun _ => round2 (c - 273.15)) =
        List.replicate 24 (round2 (c - 273.15)) from by
      rw [List.map_const', List.length_range]]
    rw [listMean_replicate 24 (by norm_num) _]

/-- C8 counterexample: with the default windows (2023-07-05 / 2023-07-27)
the window expands to 2023-07-01 .. 2023-07-31, but the remote date
filter's end bound is exclusive, so the series ends at 2023-07-30: the
last day of the end month has no value, although 2023-07-30 does. -/
theorem C8_cex :
    ((⟨2023, 7, 30⟩ : Date) ∈
      (full_month_precipitation ⟨2023, 7, 5⟩ ⟨2023, 7, 27⟩
        (fun _ => 1)).map Prod.fst) ∧
    ((⟨2023, 7, 31⟩ : Date) ∉
      (full_month_precipitation ⟨2023, 7, 5⟩ ⟨2023, 7, 27⟩
        (fun _ => 1)).map Prod.fst) := by
  rw [full_month_precipitation_dates]
  constructor
  · decide
  · decide

/-- C8 (amended): both series run over the window expanded to full
calendar months, starting at the first day of the start date's month,
ordered by date with exactly one (rounded) daily mean value per day, but
stopping one day short of the month's end: the day set is exactly
`[startOfMonth i, endOfMonthOf e)`, the last day excluded because the
remote date filter's end bound is exclusive. -/
theorem C8_thm (i e : Date) (hi : i.valid)
    (data : Date → ℚ) (tdata : Date → ℕ → ℚ) :
    (full_month_precipitation i e data).map Prod.fst =
        dateRangeExcl (startOfMonth i) (endOfMonthOf e) ∧
    (full_month_temperature i e tdata).map Prod.fst =
        dateRangeExcl (startOfMonth i) (endOfMonthOf e) ∧
    List.Pairwise Date.lt (dateRangeExcl (startOfMonth i) (endOfMonthOf e)) ∧
    (∀ d : Date, d.valid →
      (d ∈ dateRangeExcl (startOfMonth i) (endOfMonthOf e) ↔
        ((startOfMonth i).le d ∧ d.lt (endOfMonthOf e)))) ∧
    (∀ x, x ∈ full_month_precipitation i e data →
      x.2 = round2 (data x.1)) := by
  refine ⟨full_month_precipitation_dates i e data,
    full_month_temperature_dates i e tdata hi,
    dateRangeExcl_pairwise _ _ (startOfMonth_valid hi), ?_, ?_⟩
  · intro d hd
    constructor
    · intro hm
      obtain ⟨h1, h2, _⟩ := dateRangeExcl_mem (startOfMonth_valid hi) hm
      exact ⟨h1, h2⟩
    · rintro ⟨h1, h2⟩
      exact dateRangeExcl_complete (startOfMonth_valid hi) hd h1 h2
  · intro x hx
    simp only [full_month_precipitation, chirpsCollection] at hx
    split_ifs at hx with hE
    · cases hx
    · obtain ⟨d, _, rfl⟩ := List.mem_map.mp hx
      rfl

/-- C8 witness: the precipitation series of the default window covers
exactly the half-open expanded month window. -/
theorem C8_wit :
    (full_month_precipitation ⟨2023, 7, 5⟩ ⟨2023, 7, 27⟩ (fun _ => 1)).map
        Prod.fst =
      dateRangeExcl (startOfMonth ⟨2023, 7, 5⟩) (endOfMonthOf ⟨2023, 7, 27⟩) :=
  (C8_thm ⟨2023, 7, 5⟩ ⟨2023, 7, 27⟩ (by decide) (fun _ => 1)
    (fun _ _ => 300)).1

/-- C9 counterexample: an hourly reading of 300.001 K is reported as
26.85 °C, not 300.001 − 273.15 = 26.851 °C: the code rounds after
subtracting, so the output is not the exact subtraction. -/
theorem C9_cex :
    (((⟨2023, 7, 1⟩ : Date), (26.85 : ℚ)) ∈
      full_month_temperature ⟨2023, 7, 5⟩ ⟨2023, 7, 5⟩
        (fun _ _ => 300.001)) ∧
    (26.85 : ℚ) ≠ 300.001 - 273.15 := by
  constructor
  · rw [full_month_temperature_const ⟨2023, 7, 5⟩ ⟨2023, 7, 5⟩
      (by decide) 300.001]
    have hval : round2 ((300.001 : ℚ) - 273.15) = 26.85 := by
      norm_num [round2, roundHalfEven]
    rw [hval]
    exact List.mem_map.mpr ⟨⟨2023, 7, 1⟩, by decide, rfl⟩
  · norm_num

/-- C9 (amended): every value of the output temperature series is the
daily mean of the hourly Kelvin readings converted to Celsius by
subtracting 273.15 and rounding to two decimal places; in particular a
reading of 300.0 K yields exactly 26.85 °C. -/
theorem C9_thm (i e : Date) (hi : i.valid) (tdata : Date → ℕ → ℚ)
    (d : Date) (v : ℚ)
    (hmem : (d, v) ∈ full_month_temperature i e tdata) :
    v = listMean ((List.range 24).map
        (fun h => round2 (tdata d h - 273.15))) ∧
    round2 ((300 : ℚ) - 273.15) = 26.85 := by
  refine ⟨?_, by norm_num [round2, roundHalfEven]⟩
  simp only [full_month_temperature, temperatureCollection] at hmem
  split_ifs at hmem with hE
  · cases hmem
  · rw [tempcol_map_t (dateRangeExcl (startOfMonth i) (endOfMonthOf e))
      tdata] at hmem
    have hv := groupMean_mem hmem
    have hd : d ∈ dateRangeExcl (startOfMonth i) (endOfMonthOf e) := by
      have h1 : d ∈ (groupMean
          ((dateRangeExcl (startOfMonth i) (endOfMonthOf e)).flatMap
            (fun d2 => (List.range 24).map
              (fun h => (d2, round2 (tdata d2 h - 273.15)))))).map Prod.fst :=
        List.mem_map.mpr ⟨(d, v), hmem, rfl⟩
      rw [groupMean_dates] at h1
      rw [show uniqueKeys
          ((dateRangeExcl (startOfMonth i) (endOfMonthOf e)).flatMap
            (fun d2 => (List.range 24).map
              (fun h => (d2, round2 (tdata d2 h - 273.15))))) =
          dateRangeExcl (startOfMonth i) (endOfMonthOf e) from
        uniqueKeys_hourly _ (fun d2 h => round2 (tdata d2 h - 273.15))
          (dateRangeExcl_nodup _ _ (startOfMonth_valid hi))] at h1
      exact h1
    rw [show ((dateRangeExcl (startOfMonth i) (endOfMonthOf e)).flatMap
          (fun d2 => (List.range 24).map
            (fun h => (d2, round2 (tdata d2 h - 273.15))))).filterMap
          (fun x => if x.1 = d then some x.2 else none) =
        (List.range 24).map (fun h => round2 (tdata d h - 273.15)) from
      filterMap_key_hourly _ (fun d2 h => round2 (tdata d2 h - 273.15))
        (dateRangeExcl_nodup _ _ (startOfMonth_valid hi)) d hd] at hv
    exact hv

/-- C9 witness: a constant 300.0 K day is reported as 26.85 °C. -/
theorem C9_wit :
    (26.85 : ℚ) = listMean ((List.range 24).map
      (fun h => round2 ((300 : ℚ) - 273.15))) ∧
    round2 ((300 : ℚ) - 273.15) = 26.85 := by
  have hmem : ((⟨2023, 7, 1⟩ : Date), (26.85 : ℚ)) ∈
      full_month_temperature ⟨2023, 7, 5⟩ ⟨2023, 7, 5⟩ (fun _ _ => 300) := by
    rw [full_month_temperature_const ⟨2023, 7, 5⟩ ⟨2023, 7, 5⟩
      (by decide) 300]
    have hval : round2 ((300 : ℚ) - 273.15) = 26.85 := by
      norm_num [round2, roundHalfEven]
    rw [hval]
    exact List.mem_map.mpr ⟨⟨2023, 7, 1⟩, by decide, rfl⟩
  exact C9_thm ⟨2023, 7, 5⟩ ⟨2023, 7, 5⟩ (by decide) (fun _ _ => 300)
    ⟨2023, 7, 1⟩ 26.85 hmem

/-- Polygon/multi-polygon coordinate arrays of a GeoJSON geometry; the
app never inspects them locally, it passes them to the geometry
constructors. -/
abbrev Coords := List (List (ℚ × ℚ))

/-- A parsed GeoJSON geometry object: the `type` and `coordinates` keys
may each be absent. -/
structure RawGeometry where
  gtype : Option String
  coordinates : Option Coords

/-- A parsed GeoJSON feature: the `geometry` key may be absent. -/
structure Feature where
  geometry : Option RawGeometry

/-- A parsed GeoJSON file body: a top-level `features` list, or a
top-level `geometries` list, or neither. -/
structure GeoJSON where
  features : Option (List Feature)
  geometries : Option (List RawGeometry)

/-- The Earth Engine geometry values the uploader constructs. -/
inductive EEGeometry where
  | point : List ℚ → EEGeometry
  | polygon : Coords → EEGeometry
  | multiPolygon : Coords → EEGeometry
  | multiPolygonList : List EEGeometry → EEGeometry

/-- The fallback geometry `ee.Geometry.Point([16.25, 36.65])`. -/
def defaultPoint : EEGeometry := EEGeometry.point [16.25, 36.65]

/-- Choose the feature list of one parsed file: `features` when present,
else each entry of `geometries` wrapped as a feature, else `none`
(triggering the invalid-format warning). -/
def featuresOf (g : GeoJSON) : Option (List Feature) :=
  match g.features with
  | some fs => some fs
  | none =>
    match g.geometries with
    | some gs => some (gs.map (fun geo => ⟨some geo⟩))
    | none => none

/-- The per-feature loop of `upload_files_proc`: a feature missing
`geometry` or `coordinates` is skipped with the warning the source
shows; otherwise the geometry is built (`Polygon` when the `type` field
equals "Polygon", else `MultiPolygon`) and its centroid fetched remotely
(`cent`; `none` models a raised exception there, and a missing `type`
key raises `KeyError` at `feature['geometry']['type']`).  An exception
aborts the whole call. -/
def procFeatures (cent : EEGeometry → Option (List ℚ)) :
    List Feature → List EEGeometry → Option (List ℚ) → List String →
    Except String (List EEGeometry × Option (List ℚ) × List String)
  | [], acc, lc, ws => Except.ok (acc, lc, ws)
  | f :: rest, acc, lc, ws =>
    match f.geometry with
    | none => procFeatures cent rest acc lc
        (ws ++ ["Invalid geometry in GeoJSON file."])
    | some rg =>
      match rg.coordinates with
      | none => procFeatures cent rest acc lc
          (ws ++ ["Invalid geometry in GeoJSON file."])
      | some coords =>
        match rg.gtype with
        | none => Except.error "Error processing GeoJSON"
        | some t =>
          let geom := if t = "Polygon" then EEGeometry.polygon coords
            else EEGeometry.multiPolygon coords
          match cent geom with
          | none => Except.error "Error processing GeoJSON"
          | some c => procFeatures cent rest (acc ++ [geom]) (some c) ws

/-- The file loop of `upload_files_proc`: each uploaded file is read and
JSON-parsed (`none` models `json.loads` raising), then its features are
processed; a file of unrecognized shape gets a warning and is skipped. -/
def procFiles (cent : EEGeometry → Option (List ℚ)) :
    List (Option GeoJSON) → List EEGeometry → Option (List ℚ) →
    List String →
    Except String (List EEGeometry × Option (List ℚ) × List String)
  | [], acc, lc, ws => Except.ok (acc, lc, ws)
  | none :: _, _, _, _ => Except.error "Error processing GeoJSON"
  | some g :: rest, acc, lc, ws =>
    match featuresOf g with
    | none => procFiles cent rest acc lc
        (ws ++ ["Invalid GeoJSON format. Expected 'features' or 'geometries'."])
    | some fs =>
      match procFeatures cent fs acc lc ws with
      | Except.ok (acc2, lc2, ws2) => procFiles cent rest acc2 lc2 ws2
      | Except.error e => Except.error e

/-- `upload_files_proc(upload_files)`: result geometry, returned
centroid (`init` is the incoming value of the `last_uploaded_centroid`
global), the warnings shown, and the errors shown. -/
def upload_files_proc (cent : EEGeometry → Option (List ℚ))
    (files : List (Option GeoJSON)) (init : Option (List ℚ)) :
    EEGeometry × Option (List ℚ) × List String × List String :=
  if files.isEmpty then (defaultPoint, none, [], [])
  else
    match procFiles cent files [] init [] with
    | Except.ok (acc, lc, ws) =>
      if acc.isEmpty then
        (defaultPoint, none,
          ws ++ ["No valid geometries found in uploaded files."], [])
      else (EEGeometry.multiPolygonList acc, lc, ws, [])
    | Except.error e => (defaultPoint, none, [], [e])

/-- A well-formed polygon coordinate array used by the fixtures. -/
def coords0 : Coords := [[(0, 0), (0, 1), (1, 1)]]

/-- A valid GeoJSON feature: a Polygon with coordinates. -/
def goodFeature : Feature := ⟨some ⟨some "Polygon", some coords0⟩⟩

/-- A malformed feature whose geometry holds coordinates but no `type`
key, so `feature['geometry']['type']` raises `KeyError`. -/
def badTypeFeature : Feature := ⟨some ⟨none, some coords0⟩⟩

/-- A malformed feature with no `geometry` key. -/
def noGeomFeature : Feature := ⟨none⟩

/-- A one-file upload with a valid feature followed by the type-less
malformed feature. -/
def fileWithBadType : GeoJSON := ⟨some [goodFeature, badTypeFeature], none⟩

/-- A centroid oracle on which every remote centroid call succeeds. -/
def centOk : EEGeometry → Option (List ℚ) := fun _ => some [0, 0]

/-- C7 counterexample: the upload containing the type-less malformed
feature hard-fails — the whole call falls back to the default point and
the already-parsed valid feature is discarded — whereas the same upload
without the malformed feature yields the valid geometry. -/
theorem C7_cex :
    (upload_files_proc centOk [some fileWithBadType] none).1 =
      EEGeometry.point [16.25, 36.65] ∧
    (upload_files_proc centOk [some (⟨some [goodFeature], none⟩ : GeoJSON)]
        none).1 =
      EEGeometry.multiPolygonList [EEGeometry.polygon coords0] := by
  constructor <;> rfl

/-- C7 (amended): a feature missing the `geometry` or the `coordinates`
key is skipped — nothing is appended to the geometry list or centroid —
with the warning the source shows, and processing continues with the
remaining features; a feature whose geometry lacks the `type` key, or a
failing remote centroid call, instead aborts the whole call. -/
theorem C7_thm (cent : EEGeometry → Option (List ℚ)) (f : Feature)
    (hm : f.geometry = none ∨
      ∃ rg, f.geometry = some rg ∧ rg.coordinates = none)
    (rest : List Feature) (acc : List EEGeometry)
    (lc : Option (List ℚ)) (ws : List String) :
    procFeatures cent (f :: rest) acc lc ws =
      procFeatures cent rest acc lc
        (ws ++ ["Invalid geometry in GeoJSON file."]) := by
  rcases hm with hn | ⟨rg, hg, hc⟩
  · simp only [procFeatures, hn]
  · simp only [procFeatures, hg, hc]

/-- C7 witness: a geometry-less feature is skipped with the warning and
the remaining valid feature is still processed. -/
theorem C7_wit :
    procFeatures centOk [noGeomFeature, goodFeature] [] none [] =
      procFeatures centOk [goodFeature] [] none
        ([] ++ ["Invalid geometry in GeoJSON file."]) :=
  C7_thm centOk noGeomFeature (Or.inl rfl) [goodFeature] [] none []

/-- C10: with no uploaded files, or no valid geometry parsed from any
file, or an exception raised while processing (discarding any
geometries already parsed), `upload_files_proc` returns the fixed
default point geometry at [16.25, 36.65] and no centroid. -/
theorem C10_thm (cent : EEGeometry → Option (List ℚ))
    (files : List (Option GeoJSON)) (init : Option (List ℚ))
    (h : files = [] ∨
      (∃ lc ws, procFiles cent files [] init [] = Except.ok ([], lc, ws)) ∨
      (∃ e, procFiles cent files [] init [] = Except.error e)) :
    (upload_files_proc cent files init).1 = EEGeometry.point [16.25, 36.65] ∧
    (upload_files_proc cent files init).2.1 = none := by
  unfold upload_files_proc
  rcases h with rfl | ⟨lc, ws, hok⟩ | ⟨e, herr⟩
  · exact ⟨rfl, rfl⟩
  · by_cases hE : files.isEmpty
    · rw [if_pos hE]
      exact ⟨rfl, rfl⟩
    · rw [if_neg hE, hok]
      exact ⟨rfl, rfl⟩
  · by_cases hE : files.isEmpty
    · rw [if_pos hE]
      exact ⟨rfl, rfl⟩
    · rw [if_neg hE, herr]
      exact ⟨rfl, rfl⟩

/-- C10 witness: the empty upload returns the default point and no
centroid. -/
theorem C10_wit :
    (upload_files_proc centOk [] none).1 =
      EEGeometry.point [16.25, 36.65] ∧
    (upload_files_proc centOk [] none).2.1 = none :=
  C10_thm centOk [] none (Or.inl rfl)
